import Mathlib

/-!
Verification of the data-preparation and collection scripts of the
gsw-analytics repository (scripts/common_center_utils.py,
scripts/gsw_collect.py, scripts/save_to_sqlite.py).

Dataframes are modelled as lists of typed rows; nullable pandas columns
become `Option` fields, numeric columns become `Int`/`ℚ`, and the
column-presence checks of the Python code become boolean flags on the
dataframe structures.  Python string operations (`str.upper`,
`str.strip`, `str.lstrip("0")`, `str(x)` on a possibly-missing value)
are modelled character-wise over ASCII.
-/

/-- Python whitespace characters recognised by `str.strip()` (ASCII part). -/
def isPySpace (c : Char) : Bool :=
  c == ' ' || c == '\t' || c == '\n' || c == '\r' || c == '\x0b' || c == '\x0c'

/-- `str.strip()` on a character list: drop whitespace from both ends. -/
def pyStripList (l : List Char) : List Char :=
  ((l.dropWhile isPySpace).reverse.dropWhile isPySpace).reverse

/-- `str.strip()` on a string. -/
def pyStrip (s : String) : String :=
  String.mk (pyStripList s.data)

/-- `str.upper()` (character-wise ASCII model). -/
def pyUpper (s : String) : String :=
  String.mk (s.data.map Char.toUpper)

/-- Python `str(x)` applied to a possibly-missing (NaN) cell: a missing
float cell prints as `"nan"`. -/
def pyStr : Option String → String
  | some s => s
  | none => "nan"

/-- `str.lstrip("0")` on a character list. -/
def lstrip0List (l : List Char) : List Char :=
  l.dropWhile (· == '0')

/-- `str.lstrip("0")`: remove every leading `'0'` character. -/
def lstrip0 (s : String) : String :=
  String.mk (lstrip0List s.data)

/-- A regex word character (`\w`): letter, digit or underscore. -/
def isWordChar (c : Char) : Bool :=
  c.isAlphanum || c == '_'

/-- Does `re.search(r"\bC\b", s)` match?  Walk the characters keeping the
previous one; a `'C'` matches when its neighbour on each side is absent or
a non-word character. -/
def hasWordC : Option Char → List Char → Bool
  | _, [] => false
  | prev, c :: rest =>
    (c == 'C' &&
      (match prev with | none => true | some p => !isWordChar p) &&
      (match rest with | [] => true | d :: _ => !isWordChar d))
    || hasWordC (some c) rest

/-- `pandas.Series.str.startswith("C")` for one string. -/
def startsWithC : List Char → Bool
  | [] => false
  | c :: _ => c == 'C'

/-- `pandas.Series.str.endswith("C")` for one string. -/
def endsWithC : List Char → Bool
  | [] => false
  | [c] => c == 'C'
  | _ :: c :: rest => endsWithC (c :: rest)

/-- The center test of `detect_c_starters`:
`pos.str.contains(r"\bC\b") | pos.str.startswith("C") | pos.str.endswith("C")`. -/
def isCenterPos (p : String) : Bool :=
  hasWordC none p.data || startsWithC p.data || endsWithC p.data

/-- `START_POSITION.astype(str).str.upper().str.strip()` on one cell. -/
def posNorm (v : Option String) : String :=
  pyStrip (pyUpper (pyStr v))

/-- One row of the boxscores dataframe (`data/gsw_boxscores.csv`). -/
structure BoxRow where
  GAME_ID : String
  GID_NORM : String
  TEAM_ID : Option Int
  PLAYER_ID : Int
  PLAYER_NAME : Option String
  START_POSITION : Option String
deriving DecidableEq

/-- One row of the frame returned by `detect_c_starters`
(columns `GID_NORM`, `PLAYER_NAME`, `PLAYER_NAME_NORM`). -/
structure StarterRow where
  GID_NORM : String
  PLAYER_NAME : Option String
  PLAYER_NAME_NORM : String
deriving DecidableEq

/-- Projection of a flagged boxscore row to its starter row:
`PLAYER_NAME_NORM = PLAYER_NAME.astype(str).str.upper().str.strip()`. -/
def toStarterRow (r : BoxRow) : StarterRow :=
  { GID_NORM := r.GID_NORM
    PLAYER_NAME := r.PLAYER_NAME
    PLAYER_NAME_NORM := pyStrip (pyUpper (pyStr r.PLAYER_NAME)) }

/-- `detect_c_starters`: keep the rows whose normalised start position
passes the center test, and project them to `(GID_NORM, PLAYER_NAME,
PLAYER_NAME_NORM)`. -/
def detect_c_starters (rows : List BoxRow) : List StarterRow :=
  (rows.filter (fun r => isCenterPos (posNorm r.START_POSITION))).map toStarterRow

/-- A concrete boxscore row whose start position is `"ACB"`: the `'C'`
is strictly inside a word, so the regex `\bC\b` does not match and the
string neither starts nor ends with `'C'`. -/
def acbRow : BoxRow :=
  { GAME_ID := "0022400001"
    GID_NORM := "22400001"
    TEAM_ID := some 1610612744
    PLAYER_ID := 201939
    PLAYER_NAME := some "Some Player"
    START_POSITION := some "ACB" }

/-- A concrete boxscore row starting at center (`START_POSITION = "C"`). -/
def centerRow : BoxRow :=
  { GAME_ID := "0022400002"
    GID_NORM := "22400002"
    TEAM_ID := some 1610612744
    PLAYER_ID := 203110
    PLAYER_NAME := some "Kevon Looney"
    START_POSITION := some "C" }

/-- One row of the games dataframe (`data/gsw_games.csv`). -/
structure GameRow where
  GAME_ID : String
  GID_NORM : String
  GAME_DATE : Option String
  WL : Option String
  PTS : Option ℚ
  PLUS_MINUS : Option ℚ
  PTS_OPP : Option ℚ
  SEASON_TYPE : Option String
  HAS_CENTER : Bool
deriving DecidableEq

/-- The games dataframe: rows plus the column-presence facts the Python
code branches on (`"PTS_OPP" in games.columns`, etc.). -/
structure GamesDF where
  rows : List GameRow
  hasSeasonType : Bool
  hasPtsOpp : Bool
  hasPlusMinus : Bool
deriving DecidableEq

/-- The boxscores dataframe: rows plus column-presence facts
(`box.get("TEAM_ID")`, `"START_POSITION" in box.columns`). -/
structure BoxDF where
  rows : List BoxRow
  hasTeamId : Bool
  hasStartPosition : Bool
deriving DecidableEq

/-- Pandas subtraction of two nullable numeric cells: NA propagates. -/
def optSub : Option ℚ → Option ℚ → Option ℚ
  | some a, some b => some (a - b)
  | _, _ => none

/-- `normalize_team_id`: when the `TEAM_ID` column is missing,
`_safe_numeric_series` substitutes an all-NA series; `pd.to_numeric`
with coercion on an already-numeric nullable column is the identity.
Afterwards the column always exists. -/
def normalize_team_id (box : BoxDF) : BoxDF :=
  { rows :=
      if box.hasTeamId then box.rows
      else box.rows.map (fun r => { r with TEAM_ID := none })
    hasTeamId := true
    hasStartPosition := box.hasStartPosition }

/-- `add_pts_opp_if_missing`: derive `PTS_OPP = PTS - PLUS_MINUS` when
absent and `PLUS_MINUS` exists, else create it as all-NA. -/
def add_pts_opp_if_missing (games : GamesDF) : GamesDF :=
  if !games.hasPtsOpp && games.hasPlusMinus then
    { games with
      rows := games.rows.map (fun g => { g with PTS_OPP := optSub g.PTS g.PLUS_MINUS })
      hasPtsOpp := true }
  else if !games.hasPtsOpp then
    { games with
      rows := games.rows.map (fun g => { g with PTS_OPP := none })
      hasPtsOpp := true }
  else games

/-- `normalize_game_ids`: `astype(str)` on the (already string-modelled)
`GAME_ID` column is the identity; `GID_NORM` is `GAME_ID` with leading
zeros removed, on both dataframes. -/
def normalize_game_ids (games : GamesDF) (box : BoxDF) : GamesDF × BoxDF :=
  ({ games with
       rows := games.rows.map (fun g => { g with GID_NORM := lstrip0 g.GAME_ID }) },
   { box with
       rows := box.rows.map (fun r => { r with GID_NORM := lstrip0 r.GAME_ID }) })

/-- `filter_regular_season_and_playoffs`: prefer `SEASON_TYPE` when the
column exists, otherwise fall back to the `GID_NORM` prefix
(`"2"` regular season, `"4"` playoffs). -/
def filter_regular_season_and_playoffs (games : GamesDF) : List GameRow :=
  if games.hasSeasonType then
    games.rows.filter (fun g =>
      g.SEASON_TYPE == some "Regular Season" || g.SEASON_TYPE == some "Playoffs")
  else
    games.rows.filter (fun g =>
      g.GID_NORM.startsWith "2" || g.GID_NORM.startsWith "4")

/-- `ensure_start_position`: create the column as `""` when missing,
then `fillna("").astype(str)` — every cell becomes a present string. -/
def ensure_start_position (box : BoxDF) : BoxDF :=
  let withCol :=
    if box.hasStartPosition then box.rows
    else box.rows.map (fun r => { r with START_POSITION := some "" })
  { rows := withCol.map (fun r => { r with START_POSITION := some (r.START_POSITION.getD "") })
    hasTeamId := box.hasTeamId
    hasStartPosition := true }

/-- `build_box_gsw`: keep the boxscore rows of the requested team whose
`GID_NORM` occurs among the games rows' `GID_NORM` values. -/
def build_box_gsw (box : List BoxRow) (games : List GameRow) (team_id : Int) : List BoxRow :=
  box.filter (fun r =>
    r.TEAM_ID == some team_id && (games.map GameRow.GID_NORM).contains r.GID_NORM)

/-- `build_allowed_traditional_set`:
`(detected - {n.upper() for n in exclude}) | {n.upper() for n in include}`. -/
def build_allowed_traditional_set
    (starters_c : List StarterRow) (exclude_small_ball include_traditional : Finset String) :
    Finset String :=
  ((starters_c.map StarterRow.PLAYER_NAME_NORM).toFinset \ exclude_small_ball.image pyUpper)
    ∪ include_traditional.image pyUpper

/-- The set of game ids where an allowed name started at C
(the `allowed_games` set inside `label_has_traditional_center`). -/
def allowedGames (starters_c : List StarterRow) (allowed_trad : Finset String) : Finset String :=
  ((starters_c.filter (fun s => decide (s.PLAYER_NAME_NORM ∈ allowed_trad))).map
    StarterRow.GID_NORM).toFinset

/-- The boolean computed for one game row by `label_has_traditional_center`. -/
def gameHasCenter (starters_c : List StarterRow) (allowed_trad : Finset String)
    (g : GameRow) : Bool :=
  decide (g.GID_NORM ∈ allowedGames starters_c allowed_trad)

/-- `label_has_traditional_center`: the boolean series
`games["GID_NORM"].isin(allowed_games)`, aligned with the games rows. -/
def label_has_traditional_center (games : List GameRow) (starters_c : List StarterRow)
    (allowed_trad : Finset String) : List Bool :=
  games.map (gameHasCenter starters_c allowed_trad)

/-- One row of the summary dataframe built by `summarize_games`. -/
structure SummaryRow where
  HAS_CENTER : Bool
  games_played : Nat
  wins : Nat
  avg_pts_scored : Option ℚ
  avg_pts_allowed : Option ℚ
  win_rate : ℚ
  net_rating : Option ℚ
  label : String
deriving DecidableEq

/-- Pandas `mean` over a column: skip NA, and NaN (here `none`) when no
value remains. -/
def optMean (l : List ℚ) : Option ℚ :=
  if l.isEmpty then none else some (l.sum / l.length)

/-- The group of a `groupby("HAS_CENTER")` key. -/
def groupRows (rows : List GameRow) (b : Bool) : List GameRow :=
  rows.filter (fun g => g.HAS_CENTER == b)

/-- The summary row `summarize_games` produces for one `HAS_CENTER`
group: `games_played` is a pandas `"count"` of `GAME_DATE` (non-NA
cells only), `wins` counts `WL == "W"`, and
`win_rate = wins / games_played * 100`.  Division is rational
(`q / 0 = 0` where pandas floats would give `inf` or `nan`). -/
def summaryFor (rows : List GameRow) (b : Bool) : SummaryRow :=
  let grp := groupRows rows b
  let played := grp.countP (fun g => g.GAME_DATE.isSome)
  let wins := grp.countP (fun g => g.WL == some "W")
  let avgScored := optMean (grp.filterMap GameRow.PTS)
  let avgAllowed := optMean (grp.filterMap GameRow.PTS_OPP)
  { HAS_CENTER := b
    games_played := played
    wins := wins
    avg_pts_scored := avgScored
    avg_pts_allowed := avgAllowed
    win_rate := ((wins : ℚ) / (played : ℚ)) * 100
    net_rating := optSub avgScored avgAllowed
    label := if b then "With Traditional Center" else "Without Traditional Center" }

/-- `summarize_games`: one summary row per `HAS_CENTER` value present in
the data, in the sorted key order `False < True` that `groupby` uses. -/
def summarize_games (rows : List GameRow) : List SummaryRow :=
  (if (groupRows rows false).isEmpty then [] else [summaryFor rows false]) ++
  (if (groupRows rows true).isEmpty then [] else [summaryFor rows true])

/-- `GSW_TEAM_ID_DEFAULT`. -/
def GSW_TEAM_ID_DEFAULT : Int := 1610612744

/-- `EXCLUDE_SMALL_BALL_DEFAULT`. -/
def EXCLUDE_SMALL_BALL_DEFAULT : Finset String := {"DRAYMOND GREEN"}

/-- `INCLUDE_TRADITIONAL_DEFAULT`. -/
def INCLUDE_TRADITIONAL_DEFAULT : Finset String :=
  {"KEVON LOONEY", "TRAYCE JACKSON-DAVIS"}

/-- `int(env) if env is not None else int(team_id or GSW_TEAM_ID_DEFAULT)`:
the `or` makes both `None` and `0` fall back to the default. -/
def teamIdFinal (envTeam : Option Int) (team_id : Option Int) : Int :=
  match envTeam with
  | some e => e
  | none =>
    match team_id with
    | some t => if t = 0 then GSW_TEAM_ID_DEFAULT else t
    | none => GSW_TEAM_ID_DEFAULT

/-- `s or default` on an optional set argument: `None` and the empty set
both fall back to the default. -/
def setOrDefault (s : Option (Finset String)) (dflt : Finset String) : Finset String :=
  match s with
  | some s => if s = ∅ then dflt else s
  | none => dflt

/-- The tuple returned by `pipeline`. -/
structure PipelineResult where
  games : List GameRow
  box_gsw : List BoxRow
  starters_c : List StarterRow
  allowed_trad : Finset String

/-- `pipeline`: the full data-prep sequence of `common_center_utils.py`.
`envTeam` models the `TEAM_ID` environment override. -/
def pipeline (envTeam : Option Int) (games : GamesDF) (box : BoxDF)
    (team_id : Option Int)
    (exclude_small_ball include_traditional : Option (Finset String)) : PipelineResult :=
  let tid := teamIdFinal envTeam team_id
  let excl := setOrDefault exclude_small_ball EXCLUDE_SMALL_BALL_DEFAULT
  let incl := setOrDefault include_traditional INCLUDE_TRADITIONAL_DEFAULT
  let nrm := normalize_game_ids games box
  let games1 := add_pts_opp_if_missing nrm.1
  let box1 := normalize_team_id nrm.2
  let gamesF := filter_regular_season_and_playoffs games1
  let box2 := ensure_start_position box1
  let bg := build_box_gsw box2.rows gamesF tid
  let sc := detect_c_starters bg
  let allowed := build_allowed_traditional_set sc excl incl
  let labeled := gamesF.map (fun g => { g with HAS_CENTER := gameHasCenter sc allowed g })
  { games := labeled, box_gsw := bg, starters_c := sc, allowed_trad := allowed }

/-- Python `str.isdigit()`-style check: non-empty and all digits. -/
def isNumericStr (s : String) : Bool :=
  !s.data.isEmpty && s.data.all Char.isDigit

/-- One row of the collected boxscore CSV (`data/gsw_boxscores.csv`),
as handled by `gsw_collect.py` and `save_to_sqlite.py`. -/
structure BoxCsvRow where
  GAME_ID : String
  PLAYER_ID : Int
  PLAYER_NAME : String
  MIN : Option String
deriving DecidableEq

/-- The delay `fetch_boxscore_safe` sleeps after a failed attempt:
`base_sleep * attempt * 1.5` — linear in the attempt number, despite the
`# Exponential backoff` comment in the source. -/
def backoffSleep (base_sleep : ℚ) (attempt : Nat) : ℚ :=
  base_sleep * attempt * (3 / 2)

/-- The body of the `try` after a successful HTTP call: empty frame
list yields an empty dataframe, otherwise `frames[0]` with its
`GAME_ID` column overwritten by the requested id. -/
def processFrames (game_id : String) (frames : List (List BoxCsvRow)) : List BoxCsvRow :=
  match frames with
  | [] => []
  | part :: _ => part.map (fun r => { r with GAME_ID := game_id })

/-- The attempt numbers `range(1, retries + 1)` iterates over. -/
def attemptNumbers (retries : Nat) : List Nat :=
  (List.range retries).map (· + 1)

/-- The observable outcome of `fetch_boxscore_safe`: the sleep durations
issued (in order), the number of HTTP attempts made, and either the
returned dataframe or the final `RuntimeError` message. -/
structure FetchTrace where
  sleeps : List ℚ
  attemptsMade : Nat
  result : Except String (List BoxCsvRow)

/-- The retry loop of `fetch_boxscore_safe` over the remaining attempt
numbers.  Each attempt first sleeps `base_sleep`; on success it returns,
on an exception it additionally sleeps the backoff delay and goes on.
`outcomes a` is what the HTTP endpoint does on attempt `a`. -/
def fetchLoop (outcomes : Nat → Except String (List (List BoxCsvRow)))
    (game_id : String) (base_sleep : ℚ) :
    List Nat → List ℚ → Nat → FetchTrace
  | [], sleeps, made =>
    { sleeps := sleeps
      attemptsMade := made
      result := Except.error ("Failed to fetch boxscore for GAME_ID=" ++ game_id) }
  | a :: rest, sleeps, made =>
    match outcomes a with
    | Except.ok frames =>
      { sleeps := sleeps ++ [base_sleep]
        attemptsMade := made + 1
        result := Except.ok (processFrames game_id frames) }
    | Except.error _ =>
      fetchLoop outcomes game_id base_sleep rest
        (sleeps ++ [base_sleep, backoffSleep base_sleep a]) (made + 1)

/-- `fetch_boxscore_safe(game_id, retries, base_sleep)`; the script
always calls it with the defaults `retries = 5`, `base_sleep = 1.2`. -/
def fetch_boxscore_safe (outcomes : Nat → Except String (List (List BoxCsvRow)))
    (game_id : String) (retries : Nat) (base_sleep : ℚ) : FetchTrace :=
  fetchLoop outcomes game_id base_sleep (attemptNumbers retries) [] 0

/-- An endpoint whose every attempt raises (e.g. a read timeout). -/
def allFailOutcomes : Nat → Except String (List (List BoxCsvRow)) :=
  fun _ => Except.error "ReadTimeout"

/-- `drop_duplicates(subset=key, keep="last")`: keep a row exactly when
no later row has the same key, preserving order. -/
def dropDupKeepLast {α κ : Type} [DecidableEq κ] (key : α → κ) : List α → List α
  | [] => []
  | x :: xs =>
    if xs.any (fun y => decide (key y = key x)) then dropDupKeepLast key xs
    else x :: dropDupKeepLast key xs

/-- The deduplication key of the resume-and-merge step. -/
def boxKey (r : BoxCsvRow) : String × Int :=
  (r.GAME_ID, r.PLAYER_ID)

/-- The resume-and-merge step of `gsw_collect.main`:
`pd.concat([old, new]).drop_duplicates(subset=["GAME_ID", "PLAYER_ID"], keep="last")`. -/
def mergeResume (old new : List BoxCsvRow) : List BoxCsvRow :=
  dropDupKeepLast boxKey (old ++ new)

/-- A SQLite-visible effect of `save_to_sqlite.py`. -/
inductive SqliteEffect where
  | writeTable (table : String) (ifExists : String)
  | createIndex (indexName : String) (table : String) (columns : List String)
deriving DecidableEq

/-- Is the effect a `CREATE INDEX` statement? -/
def SqliteEffect.isCreateIndex : SqliteEffect → Bool
  | SqliteEffect.createIndex _ _ _ => true
  | _ => false

/-- The table name of a `to_sql` call, if any. -/
def SqliteEffect.tableWritten : SqliteEffect → Option String
  | SqliteEffect.writeTable t _ => some t
  | _ => none

/-- The database operations `save_to_sqlite.py` performs, in program
order: two `to_sql` writes then two `CREATE INDEX` statements. -/
def save_to_sqlite_effects : List SqliteEffect :=
  [SqliteEffect.writeTable "games" "replace",
   SqliteEffect.writeTable "boxscores" "replace",
   SqliteEffect.createIndex "idx_box_game" "boxscores" ["GAME_ID"],
   SqliteEffect.createIndex "idx_box_player" "boxscores" ["PLAYER_NAME"]]

/-- Single-character `str.split(":")` on a character list, Python
semantics: `"".split(":") == [""]` and trailing separators yield an
empty final part. -/
def splitOnColonList : List Char → List (List Char)
  | [] => [[]]
  | c :: rest =>
    let r := splitOnColonList rest
    if c == ':' then [] :: r
    else
      match r with
      | h :: t => (c :: h) :: t
      | [] => [[c]]

/-- `s.split(":")` on a string. -/
def pySplitColon (s : String) : List String :=
  (splitOnColonList s.data).map String.mk

/-- Validity of the digit tail of a Python `int()` literal, given that
the previous character was a digit: digits, with single underscores
allowed only between digits. -/
def pyDigitsValidAux : List Char → Bool
  | [] => true
  | c :: rest =>
    if c.isDigit then pyDigitsValidAux rest
    else if c == '_' then
      match rest with
      | d :: rest2 => d.isDigit && pyDigitsValidAux rest2
      | [] => false
    else false

/-- A valid unsigned Python `int()` body: non-empty, starts with a
digit, underscores only between digits. -/
def pyDigitsValid : List Char → Bool
  | [] => false
  | c :: rest => c.isDigit && pyDigitsValidAux rest

/-- The value of a digit string, skipping underscores. -/
def digitsValue : List Char → Nat → Nat
  | [], acc => acc
  | c :: rest, acc =>
    if c.isDigit then digitsValue rest (acc * 10 + (c.toNat - Char.toNat '0'))
    else digitsValue rest acc

/-- Python `int(s)` on a string: strip whitespace, optional single
sign, then a digit body; `none` models the `ValueError`. -/
def pyInt (s : String) : Option Int :=
  match pyStripList s.data with
  | [] => none
  | c :: rest =>
    if c == '+' then
      if pyDigitsValid rest then some ((digitsValue rest 0 : Nat) : Int) else none
    else if c == '-' then
      if pyDigitsValid rest then some (-((digitsValue rest 0 : Nat) : Int)) else none
    else
      if pyDigitsValid (c :: rest) then some ((digitsValue (c :: rest) 0 : Nat) : Int)
      else none

/-- `mmss_to_min` of `save_to_sqlite.py`: split on `":"`, require
exactly two parts, parse both as Python ints and return `m + s / 60`;
any failure (the `except`) returns `0.0`.  Floats are modelled as
rationals. -/
def mmss_to_min (s : String) : ℚ :=
  match pySplitColon s with
  | [a, b] =>
    match pyInt a, pyInt b with
    | some m, some sec => (m : ℚ) + (sec : ℚ) / 60
    | _, _ => 0
  | _ => 0

/-- `mmss_to_min` applied to a cell of the `MIN` column: a missing cell
(NaN) prints as `"nan"` under the `str(s)` call. -/
def mmss_to_min_cell (v : Option String) : ℚ :=
  mmss_to_min (pyStr v)

/-- A game row with a missing `GAME_DATE` (a NaT cell after
`parse_dates`), a loss, flagged `HAS_CENTER`. -/
def nullDateLossRow : GameRow :=
  { GAME_ID := "0022400001"
    GID_NORM := "22400001"
    GAME_DATE := none
    WL := some "L"
    PTS := some 110
    PLUS_MINUS := some (-5)
    PTS_OPP := some 115
    SEASON_TYPE := some "Regular Season"
    HAS_CENTER := true }

/-- A game row with a present date, a win, flagged `HAS_CENTER`. -/
def datedWinRow : GameRow :=
  { GAME_ID := "0022400002"
    GID_NORM := "22400002"
    GAME_DATE := some "2024-10-23"
    WL := some "W"
    PTS := some 120
    PLUS_MINUS := some 8
    PTS_OPP := some 112
    SEASON_TYPE := some "Regular Season"
    HAS_CENTER := true }

/-- A two-game group in which one `GAME_DATE` is missing. -/
def nullDateGames : List GameRow :=
  [nullDateLossRow, datedWinRow]

/-- A game row whose `GAME_ID` is the all-zero string `"0"`. -/
def zeroIdRow : GameRow :=
  { GAME_ID := "0"
    GID_NORM := ""
    GAME_DATE := some "2024-10-23"
    WL := some "W"
    PTS := some 100
    PLUS_MINUS := some 1
    PTS_OPP := some 99
    SEASON_TYPE := some "Regular Season"
    HAS_CENTER := false }

/-- A games dataframe containing only the all-zero `GAME_ID` row. -/
def zeroIdGamesDF : GamesDF :=
  { rows := [zeroIdRow], hasSeasonType := true, hasPtsOpp := true, hasPlusMinus := true }

/-- A games dataframe containing only `nullDateLossRow`. -/
def oneGameDF : GamesDF :=
  { rows := [nullDateLossRow], hasSeasonType := true, hasPtsOpp := true, hasPlusMinus := true }

/-- A games dataframe containing only `datedWinRow` (a regular-season
game of `"0022400002"`). -/
def c5GamesDF : GamesDF :=
  { rows := [datedWinRow], hasSeasonType := true, hasPtsOpp := true, hasPlusMinus := true }

/-- An empty boxscores dataframe with all columns present. -/
def emptyBoxDF : BoxDF :=
  { rows := [], hasTeamId := true, hasStartPosition := true }

/-- A boxscores dataframe containing only `centerRow` (a GSW player
starting at C in game `"0022400002"`). -/
def c5BoxDF : BoxDF :=
  { rows := [centerRow], hasTeamId := true, hasStartPosition := true }

/-- A detected center-starter row for Kevon Looney. -/
def looneyStarter : StarterRow :=
  { GID_NORM := "22400002"
    PLAYER_NAME := some "Kevon Looney"
    PLAYER_NAME_NORM := "KEVON LOONEY" }

/-- A previously-saved boxscore CSV row for Stephen Curry in game
`"0022400001"`. -/
def oldCsvRow : BoxCsvRow :=
  { GAME_ID := "0022400001"
    PLAYER_ID := 201939
    PLAYER_NAME := "Stephen Curry"
    MIN := some "34:10" }

/-- A re-fetched boxscore CSV row for the same `(GAME_ID, PLAYER_ID)`
pair with different minutes. -/
def newCsvRow : BoxCsvRow :=
  { GAME_ID := "0022400001"
    PLAYER_ID := 201939
    PLAYER_NAME := "Stephen Curry"
    MIN := some "36:02" }

-- ------------------------------------------------------------------
-- Lemmas
-- ------------------------------------------------------------------

theorem hasWordC_mem (prev : Option Char) (l : List Char) :
    hasWordC prev l = true → 'C' ∈ l := by
  induction l generalizing prev with
  | nil => intro h; simp [hasWordC] at h
  | cons c rest ih =>
    intro h
    simp only [hasWordC, Bool.or_eq_true, Bool.and_eq_true, beq_iff_eq] at h
    rcases h with ⟨⟨hc, _⟩, _⟩ | h
    · simp [hc]
    · exact List.mem_cons_of_mem _ (ih (some c) h)

theorem startsWithC_mem (l : List Char) :
    startsWithC l = true → 'C' ∈ l := by
  cases l with
  | nil => intro h; simp [startsWithC] at h
  | cons c rest =>
    intro h
    simp only [startsWithC, beq_iff_eq] at h
    simp [h]

theorem endsWithC_mem (l : List Char) :
    endsWithC l = true → 'C' ∈ l := by
  induction l with
  | nil => intro h; simp [endsWithC] at h
  | cons c rest ih =>
    intro h
    cases rest with
    | nil =>
      simp only [endsWithC, beq_iff_eq] at h
      simp [h]
    | cons d rest2 =>
      have : endsWithC (d :: rest2) = true := h
      exact List.mem_cons_of_mem _ (ih this)

theorem isCenterPos_contains (p : String) :
    isCenterPos p = true → 'C' ∈ p.data := by
  intro h
  simp only [isCenterPos, Bool.or_eq_true] at h
  rcases h with (h | h) | h
  · exact hasWordC_mem none p.data h
  · exact startsWithC_mem p.data h
  · exact endsWithC_mem p.data h

-- ------------------------------------------------------------------
-- C1
-- ------------------------------------------------------------------

/-- C1 (counterexample): the boxscore row with start position `"ACB"`
contains the character `'C'` after upper-casing and stripping, yet
`detect_c_starters` returns no row for it — refuting the claim that
every row whose start position contains `'C'` appears in the result. -/
theorem C1_contains_counterexample :
    'C' ∈ (posNorm acbRow.START_POSITION).data ∧
      detect_c_starters [acbRow] = [] := by
  constructor
  · decide
  · decide

/-- C1 (amended): a boxscore row is flagged by `detect_c_starters`
exactly when its upper-cased, stripped start position contains `'C'` as
a regex word (`\bC\b`) or starts or ends with `'C'`; every flagged row's
normalised start position does contain the character `'C'`, but a `'C'`
strictly inside a longer word is not flagged. -/
theorem C1_detect_c_starters_amended (rows : List BoxRow) :
    (∀ r ∈ rows, isCenterPos (posNorm r.START_POSITION) = true →
      toStarterRow r ∈ detect_c_starters rows) ∧
    (∀ s ∈ detect_c_starters rows, ∃ r ∈ rows,
      s = toStarterRow r ∧ isCenterPos (posNorm r.START_POSITION) = true ∧
      'C' ∈ (posNorm r.START_POSITION).data) := by
  constructor
  · intro r hr hc
    exact List.mem_map_of_mem toStarterRow (List.mem_filter.mpr ⟨hr, hc⟩)
  · intro s hs
    rcases List.mem_map.mp hs with ⟨r, hrf, hproj⟩
    rcases List.mem_filter.mp hrf with ⟨hr, hc⟩
    exact ⟨r, hr, hproj.symm, hc, isCenterPos_contains _ hc⟩

/-- C1 witness: instantiating the amended theorem on the concrete
one-row frame whose start position is `"C"`. -/
theorem C1_detect_c_starters_amended_witness :
    toStarterRow centerRow ∈ detect_c_starters [centerRow] :=
  (C1_detect_c_starters_amended [centerRow]).1 centerRow (by simp) (by decide)

theorem mem_summarize_games {rows : List GameRow} {s : SummaryRow}
    (hs : s ∈ summarize_games rows) :
    s = summaryFor rows false ∨ s = summaryFor rows true := by
  unfold summarize_games at hs
  rcases List.mem_append.mp hs with h | h
  · left
    by_cases hg : (groupRows rows false).isEmpty
    · simp [hg] at h
    · simp [hg] at h
      exact h
  · right
    by_cases hg : (groupRows rows true).isEmpty
    · simp [hg] at h
    · simp [hg] at h
      exact h

-- ------------------------------------------------------------------
-- C2
-- ------------------------------------------------------------------

/-- C2 (counterexample): in a two-game `HAS_CENTER` group containing a
row with a missing `GAME_DATE` and one win, `summarize_games` reports
`win_rate = 100`, not wins divided by the number of games of the group
(`1 / 2 * 100 = 50`): pandas `"count"` skips the missing date. -/
theorem C2_win_rate_counterexample :
    summarize_games nullDateGames = [summaryFor nullDateGames true] ∧
    (groupRows nullDateGames true).length = 2 ∧
    (summaryFor nullDateGames true).wins = 1 ∧
    (summaryFor nullDateGames true).games_played = 1 ∧
    (summaryFor nullDateGames true).win_rate = 100 ∧
    (summaryFor nullDateGames true).win_rate ≠
      (((summaryFor nullDateGames true).wins : ℚ) /
        ((groupRows nullDateGames true).length : ℚ)) * 100 := by
  have hempty : (groupRows nullDateGames false).isEmpty = true := by decide
  have hfull : (groupRows nullDateGames true).isEmpty = false := by decide
  have hwins : (groupRows nullDateGames true).countP (fun g => g.WL == some "W") = 1 := by
    decide
  have hdates : (groupRows nullDateGames true).countP (fun g => g.GAME_DATE.isSome) = 1 := by
    decide
  have hwr : (summaryFor nullDateGames true).win_rate =
      (((groupRows nullDateGames true).countP (fun g => g.WL == some "W") : ℚ) /
        ((groupRows nullDateGames true).countP (fun g => g.GAME_DATE.isSome) : ℚ)) * 100 :=
    rfl
  refine ⟨?_, by decide, by decide, by decide, ?_, ?_⟩
  · simp [summarize_games, hempty, hfull]
  · rw [hwr, hwins, hdates]
    norm_num
  · rw [hwr, hwins, hdates, show (groupRows nullDateGames true).length = 2 from by decide,
      show (summaryFor nullDateGames true).wins = 1 from by decide]
    norm_num

/-- C2 (amended): in each group of the summary, `win_rate` equals wins
divided by `games_played` times 100, where wins counts the rows of the
group with `WL = "W"` and `games_played` counts the rows of the group
with a non-missing `GAME_DATE`; this is at most the number of games the
group contains, with equality whenever every game of the group has a
date. -/
theorem C2_summarize_games_amended (rows : List GameRow) (s : SummaryRow)
    (hs : s ∈ summarize_games rows) :
    s.wins = (groupRows rows s.HAS_CENTER).countP (fun g => g.WL == some "W") ∧
    s.games_played = (groupRows rows s.HAS_CENTER).countP (fun g => g.GAME_DATE.isSome) ∧
    s.win_rate = ((s.wins : ℚ) / (s.games_played : ℚ)) * 100 ∧
    s.games_played ≤ (groupRows rows s.HAS_CENTER).length ∧
    ((∀ g ∈ groupRows rows s.HAS_CENTER, g.GAME_DATE.isSome = true) →
      s.games_played = (groupRows rows s.HAS_CENTER).length) := by
  rcases mem_summarize_games hs with h | h <;> subst h <;>
    exact ⟨rfl, rfl, rfl, List.countP_le_length _,
      fun hall => List.countP_eq_length.mpr hall⟩

/-- C2 witness: the amended theorem applied to the concrete two-game
group with a missing date. -/
theorem C2_summarize_games_amended_witness :
    (summaryFor nullDateGames true).win_rate =
      (((summaryFor nullDateGames true).wins : ℚ) /
        ((summaryFor nullDateGames true).games_played : ℚ)) * 100 :=
  (C2_summarize_games_amended nullDateGames (summaryFor nullDateGames true)
    (by
      have hempty : (groupRows nullDateGames false).isEmpty = true := by decide
      have hfull : (groupRows nullDateGames true).isEmpty = false := by decide
      simp [summarize_games, hempty, hfull])).2.2.1

-- ------------------------------------------------------------------
-- C3
-- ------------------------------------------------------------------

theorem list_zip_self_map {α β : Type} (f : α → β) :
    ∀ (l : List α) (p : α × β), p ∈ l.zip (l.map f) → p.2 = f p.1 := by
  intro l
  induction l with
  | nil =>
    intro p hp
    simp at hp
  | cons a t ih =>
    intro p hp
    simp only [List.map_cons, List.zip_cons_cons] at hp
    rcases List.mem_cons.mp hp with h | h
    · subst h; rfl
    · exact ih p h

/-- C3: membership in the allowed traditional-center set is
(detected minus upper-cased excludes) union upper-cased includes, and
the `HAS_CENTER` label of a game is true exactly when some detected
center starter of that game belongs to the allowed set. -/
theorem C3_allowed_set_and_label (starters_c : List StarterRow)
    (excl incl : Finset String) (games : List GameRow) :
    (∀ n, n ∈ build_allowed_traditional_set starters_c excl incl ↔
      (((∃ s ∈ starters_c, s.PLAYER_NAME_NORM = n) ∧ n ∉ excl.image pyUpper) ∨
        n ∈ incl.image pyUpper)) ∧
    (∀ p ∈ games.zip (label_has_traditional_center games starters_c
        (build_allowed_traditional_set starters_c excl incl)),
      (p.2 = true ↔ ∃ s ∈ starters_c, s.GID_NORM = p.1.GID_NORM ∧
        s.PLAYER_NAME_NORM ∈ build_allowed_traditional_set starters_c excl incl)) := by
  constructor
  · intro n
    simp only [build_allowed_traditional_set, Finset.mem_union, Finset.mem_sdiff,
      List.mem_toFinset, List.mem_map]
  · intro p hp
    simp only [label_has_traditional_center] at hp
    have hp2 := list_zip_self_map
      (gameHasCenter starters_c (build_allowed_traditional_set starters_c excl incl))
      games p hp
    rw [hp2]
    simp only [gameHasCenter, allowedGames, decide_eq_true_eq, List.mem_toFinset,
      List.mem_map, List.mem_filter]
    tauto

/-- C3 witness: on a single detected Looney starter and empty
include/exclude lists, `"KEVON LOONEY"` is allowed. -/
theorem C3_allowed_set_and_label_witness :
    "KEVON LOONEY" ∈ build_allowed_traditional_set [looneyStarter] ∅ ∅ :=
  ((C3_allowed_set_and_label [looneyStarter] ∅ ∅ []).1 "KEVON LOONEY").mpr
    (Or.inl ⟨⟨looneyStarter, by simp, rfl⟩, by simp⟩)

-- ------------------------------------------------------------------
-- C4
-- ------------------------------------------------------------------

theorem lstrip0List_digits (l : List Char) :
    (lstrip0List l ≠ [] ∧ ∀ c ∈ lstrip0List l, c.isDigit = true) ↔
    ((l ≠ [] ∧ ∀ c ∈ l, c.isDigit = true) ∧ ∃ c ∈ l, c ≠ '0') := by
  induction l with
  | nil => simp [lstrip0List]
  | cons c t ih =>
    by_cases hc : c = '0'
    · subst hc
      have hstep : lstrip0List ('0' :: t) = lstrip0List t := by
        simp [lstrip0List, List.dropWhile_cons]
      rw [hstep, ih]
      constructor
      · rintro ⟨⟨hne, hd⟩, x, hx, hxne⟩
        refine ⟨⟨by simp, ?_⟩, ⟨x, List.mem_cons_of_mem _ hx, hxne⟩⟩
        intro a ha
        rcases List.mem_cons.mp ha with rfl | ha
        · decide
        · exact hd a ha
      · rintro ⟨⟨-, hd⟩, x, hx, hxne⟩
        have hxt : x ∈ t := by
          rcases List.mem_cons.mp hx with rfl | h
          · exact absurd rfl hxne
          · exact h
        exact ⟨⟨List.ne_nil_of_mem hxt, fun a ha => hd a (List.mem_cons_of_mem _ ha)⟩,
          ⟨x, hxt, hxne⟩⟩
    · have hstep : lstrip0List (c :: t) = c :: t := by
        simp [lstrip0List, List.dropWhile_cons, hc]
      rw [hstep]
      constructor
      · rintro ⟨hne, hd⟩
        exact ⟨⟨hne, hd⟩, ⟨c, List.mem_cons_self c t, hc⟩⟩
      · rintro ⟨⟨hne, hd⟩, -⟩
        exact ⟨hne, hd⟩

theorem isNumericStr_iff (s : String) :
    isNumericStr s = true ↔ (s.data ≠ [] ∧ ∀ c ∈ s.data, c.isDigit = true) := by
  simp [isNumericStr, List.all_eq_true, List.isEmpty_iff]

theorem lstrip0_numeric (s : String) :
    isNumericStr (lstrip0 s) = true ↔
      (isNumericStr s = true ∧ ∃ c ∈ s.data, c ≠ '0') := by
  rw [isNumericStr_iff, isNumericStr_iff]
  have hdata : (lstrip0 s).data = lstrip0List s.data := rfl
  rw [hdata]
  exact lstrip0List_digits s.data

/-- C4 (counterexample): a games dataframe whose only `GAME_ID` is
`"0"` is normalised to the empty `GID_NORM`, which is not a non-empty
numeric string — the invariant is not enforced by the code. -/
theorem C4_gid_norm_counterexample :
    ((normalize_game_ids zeroIdGamesDF emptyBoxDF).1.rows.map GameRow.GID_NORM) = [""] ∧
    ((normalize_game_ids zeroIdGamesDF emptyBoxDF).1.rows.map GameRow.GAME_ID) = ["0"] ∧
    isNumericStr "" = false := by
  refine ⟨?_, ?_, ?_⟩ <;> decide

/-- C4 (amended): after normalisation every row's `GID_NORM` equals its
`GAME_ID` with the leading `'0'` characters removed, and `GID_NORM` is
a non-empty numeric string exactly when `GAME_ID` is a non-empty digit
string containing some nonzero digit; nothing stronger is enforced. -/
theorem C4_normalize_game_ids_amended (games : GamesDF) (box : BoxDF) :
    (∀ r ∈ (normalize_game_ids games box).1.rows,
      r.GID_NORM = lstrip0 r.GAME_ID ∧
      (isNumericStr r.GID_NORM = true ↔
        (isNumericStr r.GAME_ID = true ∧ ∃ c ∈ r.GAME_ID.data, c ≠ '0'))) ∧
    (∀ r ∈ (normalize_game_ids games box).2.rows,
      r.GID_NORM = lstrip0 r.GAME_ID ∧
      (isNumericStr r.GID_NORM = true ↔
        (isNumericStr r.GAME_ID = true ∧ ∃ c ∈ r.GAME_ID.data, c ≠ '0'))) := by
  constructor
  · intro r hr
    simp only [normalize_game_ids] at hr
    rcases List.mem_map.mp hr with ⟨g, hg, rfl⟩
    exact ⟨rfl, lstrip0_numeric g.GAME_ID⟩
  · intro r hr
    simp only [normalize_game_ids] at hr
    rcases List.mem_map.mp hr with ⟨g, hg, rfl⟩
    exact ⟨rfl, lstrip0_numeric g.GAME_ID⟩

/-- C4 witness: on the concrete game `"0022400001"` the normalised id
`"22400001"` is a non-empty numeric string. -/
theorem C4_normalize_game_ids_amended_witness :
    isNumericStr nullDateLossRow.GID_NORM = true :=
  (((C4_normalize_game_ids_amended oneGameDF emptyBoxDF).1 nullDateLossRow
    (by decide)).2).mpr (by decide)

-- ------------------------------------------------------------------
-- C5
-- ------------------------------------------------------------------

/-- C5: every row of the filtered boxscore output `box_gsw` of the
pipeline has a `GID_NORM` that occurs among the `GID_NORM` values of
the pipeline's filtered games output — each boxscore row references an
existing game. -/
theorem C5_box_gsw_references_games (envTeam : Option Int) (games : GamesDF)
    (box : BoxDF) (team_id : Option Int)
    (excl incl : Option (Finset String)) :
    ∀ r ∈ (pipeline envTeam games box team_id excl incl).box_gsw,
      ∃ g ∈ (pipeline envTeam games box team_id excl incl).games,
        g.GID_NORM = r.GID_NORM := by
  intro r hr
  simp only [pipeline, build_box_gsw] at hr ⊢
  rcases List.mem_filter.mp hr with ⟨hmem, hcond⟩
  have hin := List.mem_of_elem_eq_true (Bool.and_elim_right hcond)
  rcases List.mem_map.mp hin with ⟨g, hg, hgid⟩
  exact ⟨_, List.mem_map_of_mem _ hg, hgid⟩

/-- C5 witness: a concrete one-game, one-boxscore-row input on which
the filtered boxscore row's game id occurs in the games output. -/
theorem C5_box_gsw_references_games_witness :
    ∃ g ∈ (pipeline none c5GamesDF c5BoxDF none none none).games,
      g.GID_NORM = centerRow.GID_NORM :=
  C5_box_gsw_references_games none c5GamesDF c5BoxDF none none none
    centerRow (by decide)

-- ------------------------------------------------------------------
-- C6
-- ------------------------------------------------------------------

/-- C6 (code bug): the delays of `fetch_boxscore_safe` are a fixed
`base_sleep` before each attempt and `base_sleep * attempt * 1.5`
after each failure.  With `base_sleep = 1.2` the per-failure sleeps are
`1.8, 3.6, 5.4, ...`: consecutive differences are constant (linear
growth) while consecutive ratios are not, so the backoff is not
exponential in the attempt number, contradicting the claim and the
source's own `# Exponential backoff` comment. -/
theorem C6_backoff_linear_not_exponential :
    (fetch_boxscore_safe allFailOutcomes "0022400001" 5 (6/5)).sleeps =
      [6/5, backoffSleep (6/5) 1, 6/5, backoffSleep (6/5) 2, 6/5, backoffSleep (6/5) 3,
       6/5, backoffSleep (6/5) 4, 6/5, backoffSleep (6/5) 5] ∧
    backoffSleep (6/5) 1 = 9/5 ∧
    backoffSleep (6/5) 2 = 18/5 ∧
    backoffSleep (6/5) 3 = 27/5 ∧
    backoffSleep (6/5) 3 - backoffSleep (6/5) 2 =
      backoffSleep (6/5) 2 - backoffSleep (6/5) 1 ∧
    backoffSleep (6/5) 3 / backoffSleep (6/5) 2 ≠
      backoffSleep (6/5) 2 / backoffSleep (6/5) 1 := by
  refine ⟨rfl, ?_, ?_, ?_, ?_, ?_⟩ <;> norm_num [backoffSleep]

-- ------------------------------------------------------------------
-- C7
-- ------------------------------------------------------------------

theorem fetchLoop_all_fail (outcomes : Nat → Except String (List (List BoxCsvRow)))
    (game_id : String) (base_sleep : ℚ) :
    ∀ (l : List Nat) (sleeps : List ℚ) (made : Nat),
      (∀ a ∈ l, ∃ e, outcomes a = Except.error e) →
      (fetchLoop outcomes game_id base_sleep l sleeps made).result =
        Except.error ("Failed to fetch boxscore for GAME_ID=" ++ game_id) ∧
      (fetchLoop outcomes game_id base_sleep l sleeps made).attemptsMade =
        made + l.length := by
  intro l
  induction l with
  | nil =>
    intro sleeps made h
    exact ⟨rfl, rfl⟩
  | cons a t ih =>
    intro sleeps made h
    rcases h a (List.mem_cons_self a t) with ⟨e, he⟩
    have hrest : ∀ b ∈ t, ∃ e, outcomes b = Except.error e :=
      fun b hb => h b (List.mem_cons_of_mem a hb)
    have hrec := ih (sleeps ++ [base_sleep, backoffSleep base_sleep a]) (made + 1) hrest
    simp only [fetchLoop, he]
    refine ⟨hrec.1, ?_⟩
    rw [hrec.2]
    simp only [List.length_cons]
    omega

theorem fetchLoop_ok_mem (outcomes : Nat → Except String (List (List BoxCsvRow)))
    (game_id : String) (base_sleep : ℚ) :
    ∀ (l : List Nat) (sleeps : List ℚ) (made : Nat) (df : List BoxCsvRow),
      (fetchLoop outcomes game_id base_sleep l sleeps made).result = Except.ok df →
      ∃ a ∈ l, ∃ frames, outcomes a = Except.ok frames := by
  intro l
  induction l with
  | nil =>
    intro sleeps made df h
    simp [fetchLoop] at h
  | cons a t ih =>
    intro sleeps made df h
    cases hout : outcomes a with
    | ok frames => exact ⟨a, List.mem_cons_self a t, frames, hout⟩
    | error e =>
      simp only [fetchLoop, hout] at h
      rcases ih _ _ _ h with ⟨b, hb, frames, hb2⟩
      exact ⟨b, List.mem_cons_of_mem a hb, frames, hb2⟩

/-- C7: `fetch_boxscore_safe` with the default `retries = 5` makes at
most 5 attempts; when every attempt raises it makes exactly 5 attempts
and raises a `RuntimeError` naming the `GAME_ID`, and it returns a
dataframe only when some attempt's HTTP call succeeds. -/
theorem C7_fetch_retries_then_raises
    (outcomes : Nat → Except String (List (List BoxCsvRow)))
    (game_id : String) (base_sleep : ℚ) :
    ((∀ a ∈ attemptNumbers 5, ∃ e, outcomes a = Except.error e) →
      (fetch_boxscore_safe outcomes game_id 5 base_sleep).result =
        Except.error ("Failed to fetch boxscore for GAME_ID=" ++ game_id) ∧
      (fetch_boxscore_safe outcomes game_id 5 base_sleep).attemptsMade = 5) ∧
    (∀ df, (fetch_boxscore_safe outcomes game_id 5 base_sleep).result = Except.ok df →
      ∃ a ∈ attemptNumbers 5, ∃ frames, outcomes a = Except.ok frames) := by
  constructor
  · intro h
    have hrec := fetchLoop_all_fail outcomes game_id base_sleep (attemptNumbers 5) [] 0 h
    refine ⟨hrec.1, ?_⟩
    rw [show (fetch_boxscore_safe outcomes game_id 5 base_sleep).attemptsMade =
      (fetchLoop outcomes game_id base_sleep (attemptNumbers 5) [] 0).attemptsMade from rfl,
      hrec.2]
    rfl
  · intro df h
    exact fetchLoop_ok_mem outcomes game_id base_sleep (attemptNumbers 5) [] 0 df h

/-- C7 witness: on an endpoint that always times out, the concrete run
raises the `RuntimeError` naming the game id. -/
theorem C7_fetch_retries_then_raises_witness :
    (fetch_boxscore_safe allFailOutcomes "0042300401" 5 (6/5)).result =
      Except.error ("Failed to fetch boxscore for GAME_ID=" ++ "0042300401") :=
  ((C7_fetch_retries_then_raises allFailOutcomes "0042300401" (6/5)).1
    (fun _ _ => ⟨"ReadTimeout", rfl⟩)).1

-- ------------------------------------------------------------------
-- C8
-- ------------------------------------------------------------------

/-- C8: the SQLite export writes exactly the two tables `games` and
`boxscores` and creates exactly two indexes, both on `boxscores`, each
on a single column (`GAME_ID` and `PLAYER_NAME`). -/
theorem C8_sqlite_two_tables_two_indexes :
    save_to_sqlite_effects.filterMap SqliteEffect.tableWritten = ["games", "boxscores"] ∧
    save_to_sqlite_effects.filter SqliteEffect.isCreateIndex =
      [SqliteEffect.createIndex "idx_box_game" "boxscores" ["GAME_ID"],
       SqliteEffect.createIndex "idx_box_player" "boxscores" ["PLAYER_NAME"]] ∧
    (save_to_sqlite_effects.filter SqliteEffect.isCreateIndex).length = 2 ∧
    save_to_sqlite_effects.length = 4 := by
  exact ⟨rfl, rfl, rfl, rfl⟩

-- ------------------------------------------------------------------
-- C9
-- ------------------------------------------------------------------

theorem dropWhile_eq_self_of_forall {α : Type} (p : α → Bool) (l : List α)
    (h : ∀ c ∈ l, p c = false) : l.dropWhile p = l := by
  cases l with
  | nil => rfl
  | cons c t => simp [List.dropWhile_cons, h c (List.mem_cons_self c t)]

theorem pyStripList_eq_self (l : List Char)
    (h : ∀ c ∈ l, isPySpace c = false) : pyStripList l = l := by
  unfold pyStripList
  rw [dropWhile_eq_self_of_forall isPySpace l h,
    dropWhile_eq_self_of_forall isPySpace l.reverse
      (fun c hc => h c (List.mem_reverse.mp hc)),
    List.reverse_reverse]

theorem isPySpace_of_isDigit (c : Char) (h : c.isDigit = true) :
    isPySpace c = false := by
  by_contra hcon
  rw [Bool.not_eq_false] at hcon
  simp only [isPySpace, Bool.or_eq_true, beq_iff_eq] at hcon
  rcases hcon with ((((rfl | rfl) | rfl) | rfl) | rfl) | rfl <;> exact absurd h (by decide)

theorem pyDigitsValidAux_of_digits (l : List Char)
    (h : ∀ c ∈ l, c.isDigit = true) : pyDigitsValidAux l = true := by
  induction l with
  | nil => rfl
  | cons c t ih =>
    have hc := h c (List.mem_cons_self c t)
    rw [pyDigitsValidAux.eq_def]
    simp only [hc, if_true]
    exact ih (fun a ha => h a (List.mem_cons_of_mem c ha))

theorem pyInt_digits (l : List Char) (hne : l ≠ [])
    (h : ∀ c ∈ l, c.isDigit = true) :
    pyInt (String.mk l) = some ((digitsValue l 0 : Nat) : Int) := by
  cases l with
  | nil => exact absurd rfl hne
  | cons c t =>
    have hd : ∀ x ∈ c :: t, x.isDigit = true := h
    have hstrip : pyStripList (c :: t) = c :: t :=
      pyStripList_eq_self _ (fun x hx => isPySpace_of_isDigit x (hd x hx))
    have hc := hd c (List.mem_cons_self c t)
    have hcp : (c == '+') = false := by
      rw [beq_eq_false_iff_ne]
      intro hEq
      subst hEq
      exact absurd hc (by decide)
    have hcm : (c == '-') = false := by
      rw [beq_eq_false_iff_ne]
      intro hEq
      subst hEq
      exact absurd hc (by decide)
    have hvalid : pyDigitsValid (c :: t) = true := by
      simp only [pyDigitsValid, hc, Bool.true_and]
      exact pyDigitsValidAux_of_digits t (fun a ha => hd a (List.mem_cons_of_mem c ha))
    have hdata : (String.mk (c :: t)).data = c :: t := rfl
    simp only [pyInt, hdata, hstrip, hcp, hcm, hvalid, if_true, Bool.false_eq_true,
      if_false]

theorem splitOnColonList_no_colon (l : List Char) (h : ':' ∉ l) :
    splitOnColonList l = [l] := by
  induction l with
  | nil => rfl
  | cons c t ih =>
    have hc : (c == ':') = false := by
      rw [beq_eq_false_iff_ne]
      intro hEq
      exact h (hEq ▸ List.mem_cons_self c t)
    have ht : splitOnColonList t = [t] := ih (fun hm => h (List.mem_cons_of_mem c hm))
    simp [splitOnColonList, hc, ht]

theorem splitOnColonList_append (a b : List Char) (ha : ':' ∉ a) :
    splitOnColonList (a ++ ':' :: b) = a :: splitOnColonList b := by
  induction a with
  | nil => simp [splitOnColonList]
  | cons c a2 ih =>
    have hc : (c == ':') = false := by
      rw [beq_eq_false_iff_ne]
      intro hEq
      exact ha (hEq ▸ List.mem_cons_self c a2)
    have ht := ih (fun hm => ha (List.mem_cons_of_mem c hm))
    simp only [List.cons_append, splitOnColonList, hc, Bool.false_eq_true, if_false]
    rw [show (a2.append (':' :: b)) = a2 ++ ':' :: b from rfl, ht]

theorem digits_no_colon (l : List Char) (h : ∀ c ∈ l, c.isDigit = true) :
    ':' ∉ l := by
  intro hm
  exact absurd (h ':' hm) (by decide)

/-- C9: `mmss_to_min` is total with value `0.0` on every input that is
not a well-formed `"M:S"` pair of Python integers: a colon-separated
pair of digit strings evaluates to `M + S / 60`; in general any string
splitting into exactly two `int()`-parseable parts evaluates to
`m + s / 60`, every other string evaluates to `0`, and a missing `MIN`
cell (NaN, printed `"nan"` by `str`) evaluates to `0`. -/
theorem C9_mmss_to_min_total :
    (∀ (a b : List Char), a ≠ [] → (∀ c ∈ a, c.isDigit = true) →
      b ≠ [] → (∀ c ∈ b, c.isDigit = true) →
      mmss_to_min (String.mk (a ++ ':' :: b)) =
        (digitsValue a 0 : ℚ) + (digitsValue b 0 : ℚ) / 60) ∧
    (∀ (s : String) (a b : String) (m sec : Int),
      pySplitColon s = [a, b] → pyInt a = some m → pyInt b = some sec →
      mmss_to_min s = (m : ℚ) + (sec : ℚ) / 60) ∧
    (∀ s : String,
      (¬ ∃ a b m sec, pySplitColon s = [a, b] ∧ pyInt a = some m ∧ pyInt b = some sec) →
      mmss_to_min s = 0) ∧
    mmss_to_min_cell none = 0 := by
  have hgen : ∀ (s : String) (a b : String) (m sec : Int),
      pySplitColon s = [a, b] → pyInt a = some m → pyInt b = some sec →
      mmss_to_min s = (m : ℚ) + (sec : ℚ) / 60 := by
    intro s a b m sec hsplit hm hsec
    simp only [mmss_to_min, hsplit, hm, hsec]
  refine ⟨?_, hgen, ?_, ?_⟩
  · intro a b hane had hbne hbd
    have hdata : (String.mk (a ++ ':' :: b)).data = a ++ ':' :: b := rfl
    have hsplit : pySplitColon (String.mk (a ++ ':' :: b)) = [String.mk a, String.mk b] := by
      simp only [pySplitColon, hdata,
        splitOnColonList_append a b (digits_no_colon a had),
        splitOnColonList_no_colon b (digits_no_colon b hbd), List.map_cons,
        List.map_nil]
    have := hgen (String.mk (a ++ ':' :: b)) (String.mk a) (String.mk b)
      ((digitsValue a 0 : Nat) : Int) ((digitsValue b 0 : Nat) : Int)
      hsplit (pyInt_digits a hane had) (pyInt_digits b hbne hbd)
    rw [this]
    push_cast
    ring
  · intro s hno
    cases hsp : pySplitColon s with
    | nil => simp [mmss_to_min, hsp]
    | cons a t =>
      cases t with
      | nil => simp [mmss_to_min, hsp]
      | cons b t2 =>
        cases t2 with
        | nil =>
          cases hpa : pyInt a with
          | none => simp [mmss_to_min, hsp, hpa]
          | some m =>
            cases hpb : pyInt b with
            | none => simp [mmss_to_min, hsp, hpa, hpb]
            | some sec => exact absurd ⟨a, b, m, sec, hsp, hpa, hpb⟩ hno
        | cons x t3 => simp [mmss_to_min, hsp]
  · rfl

/-- C9 witness: `"34:30"` evaluates to `34.5` minutes. -/
theorem C9_mmss_to_min_total_witness :
    mmss_to_min "34:30" = (34 : ℚ) + (30 : ℚ) / 60 := by
  have h := C9_mmss_to_min_total.1 ['3', '4'] ['3', '0'] (by decide) (by decide)
    (by decide) (by decide)
  rw [show ("34:30" : String) = String.mk (['3', '4'] ++ ':' :: ['3', '0']) from rfl, h,
    show digitsValue ['3', '4'] 0 = 34 from by decide,
    show digitsValue ['3', '0'] 0 = 30 from by decide]
  norm_num

-- ------------------------------------------------------------------
-- C10
-- ------------------------------------------------------------------

theorem dropDupKeepLast_cons {α κ : Type} [DecidableEq κ] (key : α → κ)
    (a : α) (t : List α) :
    dropDupKeepLast key (a :: t) =
      if t.any (fun y => decide (key y = key a)) then dropDupKeepLast key t
      else a :: dropDupKeepLast key t := by
  rw [dropDupKeepLast.eq_def]

theorem dropDupKeepLast_subset {α κ : Type} [DecidableEq κ] (key : α → κ) :
    ∀ (l : List α), ∀ x ∈ dropDupKeepLast key l, x ∈ l := by
  intro l
  induction l with
  | nil =>
    intro x hx
    simp [dropDupKeepLast] at hx
  | cons a t ih =>
    intro x hx
    rw [dropDupKeepLast_cons] at hx
    by_cases hany : t.any (fun y => decide (key y = key a)) = true
    · rw [if_pos hany] at hx
      exact List.mem_cons_of_mem a (ih x hx)
    · rw [if_neg hany] at hx
      rcases List.mem_cons.mp hx with rfl | hx2
      · exact List.mem_cons_self x t
      · exact List.mem_cons_of_mem a (ih x hx2)

theorem dropDupKeepLast_pairwise {α κ : Type} [DecidableEq κ] (key : α → κ) :
    ∀ (l : List α), (dropDupKeepLast key l).Pairwise (fun a b => key a ≠ key b) := by
  intro l
  induction l with
  | nil => simp [dropDupKeepLast]
  | cons a t ih =>
    rw [dropDupKeepLast_cons]
    by_cases hany : t.any (fun y => decide (key y = key a)) = true
    · rw [if_pos hany]
      exact ih
    · rw [if_neg hany]
      refine List.Pairwise.cons ?_ ih
      intro b hb
      have hbt := dropDupKeepLast_subset key t b hb
      simp only [List.any_eq_true, decide_eq_true_eq] at hany
      push_neg at hany
      intro hEq
      exact hany b hbt hEq.symm

theorem dropDupKeepLast_covers {α κ : Type} [DecidableEq κ] (key : α → κ) :
    ∀ (l : List α), ∀ y ∈ l, ∃ x ∈ dropDupKeepLast key l, key x = key y := by
  intro l
  induction l with
  | nil =>
    intro y hy
    simp at hy
  | cons a t ih =>
    intro y hy
    rw [dropDupKeepLast_cons]
    by_cases hany : t.any (fun y => decide (key y = key a)) = true
    · rw [if_pos hany]
      rcases List.mem_cons.mp hy with rfl | hyt
      · simp only [List.any_eq_true, decide_eq_true_eq] at hany
        rcases hany with ⟨z, hz, hkz⟩
        rcases ih z hz with ⟨x, hx, hkx⟩
        exact ⟨x, hx, by rw [hkx, hkz]⟩
      · exact ih y hyt
    · rw [if_neg hany]
      rcases List.mem_cons.mp hy with rfl | hyt
      · exact ⟨y, List.mem_cons_self y _, rfl⟩
      · rcases ih y hyt with ⟨x, hx, hkx⟩
        exact ⟨x, List.mem_cons_of_mem a hx, hkx⟩

theorem dropDupKeepLast_append_right {α κ : Type} [DecidableEq κ] (key : α → κ) :
    ∀ (old new : List α) (x : α), x ∈ dropDupKeepLast key (old ++ new) →
      (∃ y ∈ new, key y = key x) → x ∈ new := by
  intro old
  induction old with
  | nil =>
    intro new x hx hex
    rw [List.nil_append] at hx
    exact dropDupKeepLast_subset key new x hx
  | cons a old2 ih =>
    intro new x hx hex
    rw [List.cons_append, dropDupKeepLast_cons] at hx
    by_cases hany : (old2 ++ new).any (fun y => decide (key y = key a)) = true
    · rw [if_pos hany] at hx
      exact ih new x hx hex
    · rw [if_neg hany] at hx
      rcases List.mem_cons.mp hx with rfl | hx2
      · exfalso
        simp only [List.any_eq_true, decide_eq_true_eq] at hany
        push_neg at hany
        rcases hex with ⟨y, hy, hky⟩
        exact hany y (List.mem_append_right old2 hy) hky
      · exact ih new x hx2 hex

/-- C10: after the resume-and-merge step, the merged boxscore data has
pairwise-distinct `(GAME_ID, PLAYER_ID)` keys (at most one row per
pair), every key that occurs in the inputs is still represented, and
whenever the newly fetched data contains a key, the row kept for that
key comes from the newly fetched data. -/
theorem C10_merge_dedup_keeps_new (old new : List BoxCsvRow) :
    (mergeResume old new).Pairwise (fun a b => boxKey a ≠ boxKey b) ∧
    (∀ x ∈ mergeResume old new, ∀ y ∈ new, boxKey y = boxKey x → x ∈ new) ∧
    (∀ y ∈ old ++ new, ∃ x ∈ mergeResume old new, boxKey x = boxKey y) := by
  refine ⟨dropDupKeepLast_pairwise boxKey (old ++ new), ?_, ?_⟩
  · intro x hx y hy hk
    exact dropDupKeepLast_append_right boxKey old new x hx ⟨y, hy, hk⟩
  · intro y hy
    exact dropDupKeepLast_covers boxKey (old ++ new) y hy

/-- C10 witness: with one old and one re-fetched row sharing a key, the
merged data has distinct keys and the kept row is the new one. -/
theorem C10_merge_dedup_keeps_new_witness :
    (mergeResume [oldCsvRow] [newCsvRow]).Pairwise (fun a b => boxKey a ≠ boxKey b) ∧
    newCsvRow ∈ [newCsvRow] :=
  ⟨(C10_merge_dedup_keeps_new [oldCsvRow] [newCsvRow]).1,
   (C10_merge_dedup_keeps_new [oldCsvRow] [newCsvRow]).2.1 newCsvRow (by decide)
     newCsvRow (by decide) rfl⟩
